import Mathlib

/-!
# Verification of the seo_lib core against its specification

This file shallowly embeds the core logic of the `seo_lib` repository:

* the heading generator and validator (`seo-headings`:
  `createSemanticHeading`, `validateHeadingStructure`),
* the metadata synthesizer (`advancedSEO`: `ensureArray`, `getBranding`,
  `createEnhancedOpenGraph`, `createEnhancedTwitterCard`, `createAIMetaTags`,
  `createEnhancedFAQSchema`),
* the `AIMeta` and `SEO` React components, modelled as pure functions from
  their props to the ordered list of tags they place in the document head.

JavaScript conventions carried over by the embedding:

* optional object fields / possibly-`undefined` values are `Option`s;
* JavaScript truthiness on strings (`""` is falsy) is modelled explicitly by
  `jsOr` / `truthy`, matching the source's uses of `||` and `x ? a : b`;
* the ambient clock (`new Date().toISOString()`) and the ambient location
  (`window.location.pathname`) are passed as explicit parameters (`now`,
  `windowPathname`), as the spec's determinism notes prescribe;
* `Array.prototype.join(sep)` is `String.intercalate sep`;
  `String.prototype.split(",")` and `String.prototype.trim()` are
  `splitComma` and `jsTrim` below, defined by structural recursion on the
  character list so that concrete inputs evaluate (they agree with the
  JavaScript operations, including `"".split(",") = [""]`).
-/

/-! ## JavaScript string truthiness helpers -/

/-- JavaScript `a || b` for a possibly-`undefined` string `a` and a string
fallback `b`: the empty string is falsy. -/
def jsOr (a : Option String) (b : String) : String :=
  match a with
  | some s => if s = "" then b else s
  | none => b

/-- JavaScript truthiness of a possibly-`undefined` string. -/
def truthy (a : Option String) : Bool :=
  match a with
  | some s => s != ""
  | none => false

/-- JavaScript `a || b` where both operands are possibly-`undefined` strings. -/
def jsOrOpt (a b : Option String) : Option String :=
  if truthy a then a else b

/-! ## Heading module (`seo-headings`)

Embedding of `createSemanticHeading` and `validateHeadingStructure` from the
heading utility file. -/

/-- Semantic context of a heading (`semanticContext` in `HeadingConfig`);
the source values are `'page-title' | 'section' | 'subsection' | 'feature'
| 'benefit' | 'step'`. -/
inductive SemanticCtx where
  | pageTitle
  | sectionCtx
  | subsection
  | feature
  | benefit
  | step
deriving DecidableEq, Repr

/-- `HeadingConfig` from the source: level 1-6, text, and optional
`className`, `id` and `semanticContext`. The `level` field is a `Nat`
(the source narrows it to the literal union `1 | ... | 6`). -/
structure HeadingConfig where
  level : Nat
  text : String
  className : Option String := none
  id : Option String := none
  semanticContext : Option SemanticCtx := none
deriving DecidableEq, Repr

/-- Is `c` one of the characters matched by the source's slug character class
`[a-z0-9]`? -/
def isSlugAlnum (c : Char) : Bool :=
  (97 ≤ c.toNat && c.toNat ≤ 122) || (48 ≤ c.toNat && c.toNat ≤ 57)

/-- One pass of the source's `.replace(/[^a-z0-9]+/g, '-')`: each maximal run
of characters outside `[a-z0-9]` becomes a single `'-'`. The boolean argument
records whether the previous character belonged to such a run. -/
def collapseNonAlnum : Bool → List Char → List Char
  | _, [] => []
  | inRun, c :: cs =>
    if isSlugAlnum c then c :: collapseNonAlnum false cs
    else if inRun then collapseNonAlnum true cs
    else '-' :: collapseNonAlnum true cs

/-- Drop a single leading `'-'` (the `^-` alternative of the source's
`.replace(/^-|-$/g, '')`). -/
def stripLeadHyphen : List Char → List Char
  | [] => []
  | c :: cs => if c = '-' then cs else c :: cs

/-- Drop a single trailing `'-'` (the `-$` alternative of the source's
`.replace(/^-|-$/g, '')`). -/
def stripTrailHyphen (l : List Char) : List Char :=
  (stripLeadHyphen l.reverse).reverse

/-- The slug derivation of `createSemanticHeading`:
`text.toLowerCase().replace(/[^a-z0-9]+/g, '-').replace(/^-|-$/g, '')`.
(`Char.toLower` matches `toLowerCase` on ASCII text, the domain of the
claims; after the collapse step, runs of hyphens have length one, so the
global regex `/^-|-$/g` removes exactly one leading and one trailing
hyphen, which is what `stripLeadHyphen`/`stripTrailHyphen` do.) -/
def slugify (s : String) : String :=
  ⟨stripTrailHyphen (stripLeadHyphen (collapseNonAlnum false (s.data.map Char.toLower)))⟩

/-- No two adjacent hyphens (runs of hyphens all have length one). -/
def noAdjacentHyphens : List Char → Bool
  | a :: b :: t => !(a == '-' && b == '-') && noAdjacentHyphens (b :: t)
  | _ => true

/-- The relational form of `noAdjacentHyphens`, used by the proofs. -/
def HyphenSep (l : List Char) : Prop :=
  l.Chain' fun a b => ¬(a = '-' ∧ b = '-')

/-- A string already in slug form: only `[a-z0-9]` characters and single
hyphens, neither starting nor ending with a hyphen. -/
def isSlugForm (s : String) : Bool :=
  s.data.all (fun c => isSlugAlnum c || c == '-') &&
  noAdjacentHyphens s.data &&
  decide (s.data.head? ≠ some '-') &&
  decide (s.data.getLast? ≠ some '-')

/-- Level-indexed base style classes (`seoClassMapping` in the source).
Levels outside 1-6 give `""`, which the class join filters out exactly as
`filter(Boolean)` drops the `undefined` lookup in the source. -/
def seoClassMapping : Nat → String
  | 1 => "text-4xl md:text-5xl lg:text-6xl font-bold leading-tight"
  | 2 => "text-3xl md:text-4xl font-bold leading-tight"
  | 3 => "text-2xl md:text-3xl font-bold leading-tight"
  | 4 => "text-xl md:text-2xl font-semibold leading-tight"
  | 5 => "text-lg md:text-xl font-semibold leading-tight"
  | 6 => "text-base md:text-lg font-medium leading-tight"
  | _ => ""

/-- Context-indexed modifier classes (`contextualStyling` in the source). -/
def contextualStyling : SemanticCtx → String
  | .pageTitle => "text-gray-900 dark:text-white mb-6"
  | .sectionCtx => "text-gray-900 dark:text-white mb-4"
  | .subsection => "text-gray-900 dark:text-white mb-3"
  | .feature => "text-gray-900 dark:text-white mb-2"
  | .benefit => "text-blue-600 dark:text-blue-400 mb-2"
  | .step => "text-green-600 dark:text-green-400 mb-2"

/-- `[...].filter(Boolean).join(' ')` over class segments. -/
def joinClasses (parts : List String) : String :=
  String.intercalate " " (parts.filter (fun p => p != ""))

/-- The rendered heading element: tag name, resolved id, composed class
string, `aria-level`, and text content. -/
structure HeadingElement where
  tag : String
  id : String
  className : String
  ariaLevel : Nat
  text : String
deriving DecidableEq, Repr

/-- `createSemanticHeading` from the source. The id is
`id || slug(text)` (JavaScript `||`, so an empty-string id falls back to
the slug), the class is the `filter(Boolean).join(' ')` of base class,
contextual class (defaulting to the `'section'` context) and the caller's
class. -/
def createSemanticHeading (config : HeadingConfig) : HeadingElement :=
  let ctx := config.semanticContext.getD .sectionCtx
  let cls := config.className.getD ""
  { tag := "h" ++ toString config.level
    id := jsOr config.id (slugify config.text)
    className := joinClasses [seoClassMapping config.level, contextualStyling ctx, cls]
    ariaLevel := config.level
    text := config.text }

/-- The validator's report shape. -/
structure HeadingValidation where
  isValid : Bool
  errors : List String
  suggestions : List String
deriving DecidableEq, Repr

/-- Error text for a missing H1. -/
def missingH1Msg : String :=
  "Missing H1 tag - every page should have exactly one H1"

/-- Error text for multiple H1 entries, reporting the count. -/
def multipleH1Msg (n : Nat) : String :=
  s!"Multiple H1 tags found ({n}) - use only one H1 per page"

/-- Error text for a heading level jump, naming both levels. -/
def levelJumpMsg (p c : Nat) : String :=
  s!"Heading level jump from H{p} to H{c} - avoid skipping levels"

/-- Error text for a too-short heading, citing its 1-based position. -/
def tooShortMsg (i : Nat) : String :=
  s!"Heading {i} is too short - use descriptive text"

/-- Suggestion text for an over-long heading, previewing its first 30
characters. -/
def tooLongSuggestion (t : String) : String :=
  s!"Heading \"{t}...\" is long - consider shortening for better SEO"

/-- The number of level-1 entries (`headings.filter(h => h.level === 1).length`). -/
def h1Count (headings : List HeadingConfig) : Nat :=
  (headings.filter (fun h => h.level == 1)).length

/-- Rule 1 of `validateHeadingStructure`: zero H1s or more than one H1. -/
def h1Errors (headings : List HeadingConfig) : List String :=
  if h1Count headings == 0 then [missingH1Msg]
  else if h1Count headings > 1 then [multipleH1Msg (h1Count headings)]
  else []

/-- Rule 2 of `validateHeadingStructure`: walking consecutive pairs
`(previous, current)`, an error exactly when
`current.level > previous.level + 1`. -/
def jumpErrors (headings : List HeadingConfig) : List String :=
  (headings.zip headings.tail).filterMap fun pr =>
    if pr.2.level > pr.1.level + 1 then some (levelJumpMsg pr.1.level pr.2.level)
    else none

/-- Rule 3 of `validateHeadingStructure`: an error for each heading whose
text is shorter than 3 characters, citing its 1-based position. -/
def textErrors (headings : List HeadingConfig) : List String :=
  headings.enum.filterMap fun pr =>
    if pr.2.text.length < 3 then some (tooShortMsg (pr.1 + 1)) else none

/-- Rule 4 of `validateHeadingStructure`: a suggestion for each heading whose
text is longer than 70 characters, previewing `text.substring(0, 30)`. -/
def textSuggestions (headings : List HeadingConfig) : List String :=
  headings.filterMap fun h =>
    if h.text.length > 70 then some (tooLongSuggestion (h.text.take 30)) else none

/-- `validateHeadingStructure` from the source: errors are collected in
source order (H1 rule, then level jumps, then short texts); suggestions are
the long-text suggestions; `isValid` is `errors.length === 0`. -/
def validateHeadingStructure (headings : List HeadingConfig) : HeadingValidation :=
  let errs := h1Errors headings ++ jumpErrors headings ++ textErrors headings
  { isValid := errs.isEmpty
    errors := errs
    suggestions := textSuggestions headings }

/-! ## Metadata synthesizer (`advancedSEO.ts`) -/

/-- A `string[] | string` value (the type of `keywords` and `audience`). -/
inductive StrOrArr where
  | str (s : String)
  | arr (l : List String)
deriving DecidableEq, Repr

/-- Group a character list at commas (`String.prototype.split(",")` on the
character level): each comma ends the current segment and starts a new one,
so the result always has one more segment than there are commas; the empty
string gives `[""]`, as in JavaScript. -/
def splitCommaChars : List Char → List (List Char)
  | [] => [[]]
  | c :: cs =>
    match splitCommaChars cs with
    | [] => [[]]
    | a :: rest => if c = ',' then [] :: a :: rest else (c :: a) :: rest

/-- `String.prototype.split(",")`. -/
def splitComma (s : String) : List String :=
  (splitCommaChars s.data).map fun l => (⟨l⟩ : String)

/-- `String.prototype.trim()`: drop leading and trailing whitespace. (The
JavaScript method also strips some exotic Unicode whitespace; on the ASCII
texts of the claims the two agree.) -/
def jsTrim (s : String) : String :=
  ⟨((s.data.dropWhile Char.isWhitespace).reverse.dropWhile Char.isWhitespace).reverse⟩

/-- `ensureArray` from the source: an array is used as-is; a string is split
on commas, each segment trimmed, empty segments dropped (`filter(Boolean)`);
`undefined` (and nothing else can occur) gives the empty array. -/
def ensureArray : Option StrOrArr → List String
  | some (.arr l) => l
  | some (.str s) => ((splitComma s).map jsTrim).filter (fun v => v != "")
  | none => []

/-- `AppBrandingConfig` from the source. -/
structure AppBrandingConfig where
  appName : String
  baseUrl : String
  twitterHandle : Option String := none
  emailDomain : Option String := none
deriving DecidableEq, Repr

/-- The result of `getBranding`: all four fields resolved to strings. -/
structure ResolvedBranding where
  appName : String
  baseUrl : String
  twitterHandle : String
  emailDomain : String
deriving DecidableEq, Repr

/-- `getBranding` from the source: `twitterHandle || ''` and
`emailDomain || 'example.com'`. -/
def getBranding (config : AppBrandingConfig) : ResolvedBranding :=
  { appName := config.appName
    baseUrl := config.baseUrl
    twitterHandle := jsOr config.twitterHandle ""
    emailDomain := jsOr config.emailDomain "example.com" }

/-- `AdvancedSEOConfig` from the source. `lastUpdated` (a `Date` in the
source) is modelled by its ISO-serialized string, the only way the source
reads it. -/
structure AdvancedSEOConfig where
  title : String
  description : String
  keywords : StrOrArr
  category : String
  audience : StrOrArr
  complexity : String
  contentType : String
  readingTime : Option Nat := none
  lastUpdated : Option String := none
  relatedTopics : Option (List String) := none
  branding : AppBrandingConfig
  pathname : Option String := none
deriving DecidableEq, Repr

/-- `getCurrentPathname` from the source: a truthy explicit `pathname` wins;
otherwise the ambient `window.location.pathname` (modelled by the explicit
`windowPathname` parameter, `none` when no browsing context exists);
otherwise `'/'`. -/
def getCurrentPathname (pathname : Option String) (windowPathname : Option String) : String :=
  match pathname with
  | some p => if p = "" then windowPathname.getD "/" else p
  | none => windowPathname.getD "/"

/-- `createEnhancedOpenGraph` from the source, as an ordered key/value map.
`now` models the ambient `new Date().toISOString()` read. -/
def createEnhancedOpenGraph (config : AdvancedSEOConfig) (now : String)
    (windowPathname : Option String) : List (String × String) :=
  let keywordsArray := ensureArray (some config.keywords)
  let branding := getBranding config.branding
  let pathname := getCurrentPathname config.pathname windowPathname
  [("og:title", config.title),
   ("og:description", config.description),
   ("og:type", "website"),
   ("og:url", branding.baseUrl ++ pathname),
   ("og:image", branding.baseUrl ++ "/og-images/" ++ config.category ++ ".jpg"),
   ("og:image:width", "1200"),
   ("og:image:height", "630"),
   ("og:image:alt", config.title ++ " - " ++ branding.appName),
   ("og:site_name", branding.appName),
   ("og:locale", "en_US"),
   ("article:author", branding.baseUrl ++ "/about"),
   ("article:section", config.category),
   ("article:tag", String.intercalate "," keywordsArray),
   ("article:published_time", "2024-01-01T00:00:00Z"),
   ("article:modified_time", jsOr config.lastUpdated now)]

/-- `createEnhancedTwitterCard` from the source. `twitter:data2` is
`config.readingTime ? (readingTime + " min") : "5 min"` — a numeric
truthiness test, so `0` also falls back to `"5 min"`. -/
def createEnhancedTwitterCard (config : AdvancedSEOConfig) : List (String × String) :=
  let branding := getBranding config.branding
  [("twitter:card", "summary_large_image"),
   ("twitter:site", branding.twitterHandle),
   ("twitter:creator", branding.twitterHandle),
   ("twitter:title", config.title),
   ("twitter:description", config.description),
   ("twitter:image", branding.baseUrl ++ "/twitter-cards/" ++ config.category ++ ".jpg"),
   ("twitter:image:alt", config.title ++ " - " ++ branding.appName),
   ("twitter:label1", "Category"),
   ("twitter:data1", config.category),
   ("twitter:label2", "Reading Time"),
   ("twitter:data2",
     match config.readingTime with
     | some n => if n = 0 then "5 min" else toString n ++ " min"
     | none => "5 min")]

/-- `createAIMetaTags` from the source. `ai:reading-time` is
`config.readingTime?.toString() || '5'`; the string `"0"` is truthy, so
`0` serializes as `"0"` here (unlike `twitter:data2`). -/
def createAIMetaTags (config : AdvancedSEOConfig) (now : String) : List (String × String) :=
  let keywordsArray := ensureArray (some config.keywords)
  let audienceArray := ensureArray (some config.audience)
  let branding := getBranding config.branding
  [("ai:content-type", config.contentType),
   ("ai:complexity", config.complexity),
   ("ai:category", config.category),
   ("ai:audience", String.intercalate "," audienceArray),
   ("ai:keywords", String.intercalate "," keywordsArray),
   ("ai:reading-time", match config.readingTime with | some n => toString n | none => "5"),
   ("web3:platform", "Email"),
   ("web3:networks", "ethereum,solana,polygon"),
   ("web3:wallets", "metamask,phantom,walletconnect"),
   ("web3:features", "ens,sns,smart-contracts,multi-chain"),
   ("llm:context", "Web3 email platform documentation and user guides"),
   ("llm:domain", "blockchain,cryptocurrency,decentralized-communication"),
   ("llm:use-case", "email,authentication,wallet-integration,smart-contracts"),
   ("semantic:topic", config.category),
   ("semantic:intent", "inform,guide,educate"),
   ("semantic:entities", branding.appName ++ ",Web3,blockchain,email,wallet"),
   ("content:freshness", jsOr config.lastUpdated now),
   ("content:authority", "high"),
   ("content:expertise", "technical"),
   ("content:trustworthiness", "verified")]

/-- A JSON value, for the structured-data (JSON-LD) object graphs. -/
inductive JVal where
  | str (s : String)
  | num (n : Int)
  | bool (b : Bool)
  | obj (fields : List (String × JVal))
  | arr (elems : List JVal)

/-- Field lookup on a JSON object. -/
def JVal.getField (v : JVal) (k : String) : Option JVal :=
  match v with
  | .obj fs => List.lookup k fs
  | _ => none

/-- One FAQ input entry of `createEnhancedFAQSchema`. -/
structure FAQItem where
  question : String
  answer : String
  category : Option String := none
  upvoteCount : Option Int := none
deriving DecidableEq, Repr

/-- The serialized object for one FAQ entry inside `mainEntity`, in source
field order. The spread `...(faq.upvoteCount != null && { upvoteCount })`
contributes the `upvoteCount` key exactly when the input supplies one (a
`!= null` test, so `0` is kept); `category` is `faq.category || 'General'`. -/
def faqItemFields (branding : ResolvedBranding) (now : String) (faq : FAQItem) :
    List (String × JVal) :=
  [("@type", .str "Question"),
   ("name", .str faq.question),
   ("acceptedAnswer", .obj
     [("@type", .str "Answer"),
      ("text", .str faq.answer),
      ("dateCreated", .str now),
      ("author", .obj [("@type", .str "Organization"), ("name", .str branding.appName)])]),
   ("answerCount", .num 1)]
  ++ (match faq.upvoteCount with
      | some n => [("upvoteCount", JVal.num n)]
      | none => [])
  ++ [("dateCreated", .str "2024-01-01T00:00:00Z"),
      ("category", .str (jsOr faq.category "General"))]

/-- `createEnhancedFAQSchema` from the source. `now` models the ambient
`new Date().toISOString()` read inside each accepted answer. -/
def createEnhancedFAQSchema (faqs : List FAQItem) (branding : AppBrandingConfig)
    (now : String) : JVal :=
  .obj [("@context", .str "https://schema.org"),
        ("@type", .str "FAQPage"),
        ("mainEntity", .arr (faqs.map fun faq =>
          .obj (faqItemFields (getBranding branding) now faq)))]

/-! ## `AIMeta` component

The repository contains two variants of this component under the same
export name: a reduced one rendering only the three required tags, and the
full one rendering every declared prop conditionally. The full variant is
the one exercised by the repository's own test suite and the one present in
the compiled `dist/index.js`, so it is the variant embedded here. -/

/-- `AIMetaProps` from the source. -/
structure AIMetaProps where
  contentType : String
  blockchainNetworks : Option (List String) := none
  tokenSupported : Option Bool := none
  walletRequired : Option Bool := none
  aiSummary : String
  technicalComplexity : Option String := none
  useCase : Option (List String) := none
  targetAudience : Option (List String) := none
  integrations : Option (List String) := none
  features : Option (List String) := none
  dataFlow : Option (List String) := none
  businessValue : Option (List String) := none
  securityConsiderations : Option (List String) := none
  learningOutcomes : Option (List String) := none
deriving DecidableEq, Repr

/-- JavaScript `String(b)` for a boolean. -/
def boolStr (b : Bool) : String := if b then "true" else "false"

/-- The JSX guard `{xs && xs.length > 0 && <meta name content={xs.join(',')} />}`:
a single meta entry when the list prop is present and non-empty. -/
def listMetaTag (name : String) (o : Option (List String)) : List (String × String) :=
  match o with
  | some l => if l.isEmpty then [] else [(name, String.intercalate "," l)]
  | none => []

/-- The JSX guard `{b != null && <meta name content={String(b)} />}`: a single
meta entry when the boolean prop is present (`false` included). -/
def boolMetaTag (name : String) (o : Option Bool) : List (String × String) :=
  match o with
  | some b => [(name, boolStr b)]
  | none => []

/-- The `AIMeta` component (full variant), as the ordered list of
`(name, content)` meta tags it renders. The three required tags come first
(`technicalComplexity` defaults to `'intermediate'`), then each optional
prop's tag in declaration order. -/
def AIMeta (p : AIMetaProps) : List (String × String) :=
  [("ai:content-type", p.contentType),
   ("ai:summary", p.aiSummary),
   ("ai:complexity", p.technicalComplexity.getD "intermediate")]
  ++ listMetaTag "ai:blockchain-networks" p.blockchainNetworks
  ++ boolMetaTag "ai:token-support" p.tokenSupported
  ++ boolMetaTag "ai:wallet-requirements" p.walletRequired
  ++ listMetaTag "ai:use-case" p.useCase
  ++ listMetaTag "ai:audience" p.targetAudience
  ++ listMetaTag "ai:integrations" p.integrations
  ++ listMetaTag "ai:features" p.features
  ++ listMetaTag "ai:data-flow" p.dataFlow
  ++ listMetaTag "ai:business-value" p.businessValue
  ++ listMetaTag "ai:security-considerations" p.securityConsiderations
  ++ listMetaTag "ai:learning-outcomes" p.learningOutcomes

/-- The spec's description of list-or-string normalization, stated in its
own words for comparison with the source's `ensureArray`: "if already a
list, use as-is; if a string, split on commas, trim each segment, drop
empty segments; otherwise treat as empty list". -/
def specListNormalization : Option StrOrArr → List String
  | some (.arr l) => l
  | some (.str s) => ((splitComma s).map jsTrim).filter (fun v => v != "")
  | none => []

/-- Expected content of a conditional list-valued meta tag: present with the
comma join exactly when the prop is present and non-empty. -/
def optListVal : Option (List String) → Option String
  | some l => if l.isEmpty then none else some (String.intercalate "," l)
  | none => none

/-! ## `SEO` component -/

/-- `SEOConfig` from `SEO.tsx`. -/
structure SEOAppConfig where
  appName : String
  baseUrl : String
  defaultDescription : Option String := none
  defaultOgImage : Option String := none
  defaultTwitterSite : Option String := none
deriving DecidableEq, Repr

/-- `SEOProps` from `SEO.tsx`. The trailing pass-through props (`meta`,
`links`, `structuredData`), which the component appends verbatim after the
tags modelled here and which no claim concerns, are not modelled. -/
structure SEOProps where
  title : Option String := none
  description : Option String := none
  keywords : Option StrOrArr := none
  canonical : Option String := none
  ogType : Option String := none
  ogImage : Option String := none
  noIndex : Option Bool := none
  twitterCard : Option String := none
  twitterSite : Option String := none
  config : SEOAppConfig
deriving DecidableEq, Repr

/-- One tag placed in the document head by the `SEO` component. Open Graph
entries use the `property` attribute and the rest use `name`; both are
modelled by the `meta` constructor since all keys are distinct. -/
inductive HeadTag where
  | titleTag (text : String)
  | meta (name : String) (content : String)
  | link (rel : String) (href : String)
deriving DecidableEq, Repr

/-- The title composition of `SEO.tsx`:
`title ? title + " | " + appName : appName` (so an empty-string title,
being falsy, composes as `appName` alone). -/
def seoFullTitle (title : Option String) (appName : String) : String :=
  match title with
  | some t => if t = "" then appName else t ++ " | " ++ appName
  | none => appName

/-- The canonical URL of `SEO.tsx`:
`canonical ? baseUrl + canonical : undefined`. -/
def seoCanonicalUrl (canonical : Option String) (baseUrl : String) : Option String :=
  match canonical with
  | some c => if c = "" then none else some (baseUrl ++ c)
  | none => none

/-- The keywords string of `SEO.tsx`: an array joins with `", "`, a string
passes through. -/
def seoKeywordsString : Option StrOrArr → Option String
  | some (.arr l) => some (String.intercalate ", " l)
  | some (.str s) => some s
  | none => none

/-- The `SEO` component, as the ordered list of head tags it renders
(its JSX body in order; each `{cond && <tag/>}` guard becomes a
conditionally-empty segment). -/
def SEO (p : SEOProps) : List HeadTag :=
  let appName := p.config.appName
  let baseUrl := p.config.baseUrl
  let fullTitle := seoFullTitle p.title appName
  let metaDescription := jsOrOpt p.description p.config.defaultDescription
  let metaOgImage := jsOr p.ogImage (jsOr p.config.defaultOgImage (baseUrl ++ "/og-image.png"))
  let metaTwitterSite := jsOrOpt p.twitterSite p.config.defaultTwitterSite
  let canonicalUrl := seoCanonicalUrl p.canonical baseUrl
  let keywordsString := seoKeywordsString p.keywords
  [HeadTag.titleTag fullTitle, HeadTag.meta "title" fullTitle]
  ++ (if truthy metaDescription then [HeadTag.meta "description" (metaDescription.getD "")] else [])
  ++ (if truthy keywordsString then [HeadTag.meta "keywords" (keywordsString.getD "")] else [])
  ++ (if p.noIndex.getD false then [HeadTag.meta "robots" "noindex, nofollow"] else [])
  ++ (match canonicalUrl with | some u => [HeadTag.link "canonical" u] | none => [])
  ++ [HeadTag.meta "og:type" (p.ogType.getD "website")]
  ++ (match canonicalUrl with | some u => [HeadTag.meta "og:url" u] | none => [])
  ++ [HeadTag.meta "og:title" fullTitle]
  ++ (if truthy metaDescription then [HeadTag.meta "og:description" (metaDescription.getD "")] else [])
  ++ [HeadTag.meta "og:image" metaOgImage,
      HeadTag.meta "og:site_name" appName,
      HeadTag.meta "twitter:card" (p.twitterCard.getD "summary_large_image")]
  ++ (if truthy metaTwitterSite then [HeadTag.meta "twitter:site" (metaTwitterSite.getD "")] else [])
  ++ (match canonicalUrl with | some u => [HeadTag.meta "twitter:url" u] | none => [])
  ++ [HeadTag.meta "twitter:title" fullTitle]
  ++ (if truthy metaDescription then [HeadTag.meta "twitter:description" (metaDescription.getD "")] else [])
  ++ [HeadTag.meta "twitter:image" metaOgImage]

/-! ## Lemmas about the slug derivation -/

theorem isSlugAlnum_ne_hyphen {c : Char} (h : isSlugAlnum c = true) : c ≠ '-' := by
  intro hc
  subst hc
  exact absurd h (by decide)

theorem collapseNonAlnum_mem :
    ∀ (l : List Char) (b : Bool) (c : Char),
      c ∈ collapseNonAlnum b l → isSlugAlnum c = true ∨ c = '-' := by
  intro l
  induction l with
  | nil => intro b c h; simp [collapseNonAlnum] at h
  | cons a t ih =>
    intro b c h
    by_cases ha : isSlugAlnum a = true
    · rw [collapseNonAlnum, if_pos ha] at h
      rcases List.mem_cons.mp h with rfl | hm
      · exact Or.inl ha
      · exact ih false c hm
    · rw [collapseNonAlnum, if_neg ha] at h
      cases b with
      | true => simpa using ih true c (by simpa using h)
      | false =>
        simp only [Bool.false_eq_true, if_false] at h
        rcases List.mem_cons.mp h with rfl | hm
        · exact Or.inr rfl
        · exact ih true c hm

theorem collapseNonAlnum_true_head :
    ∀ (l : List Char) (c : Char),
      (collapseNonAlnum true l).head? = some c → isSlugAlnum c = true := by
  intro l
  induction l with
  | nil => intro c h; simp [collapseNonAlnum] at h
  | cons a t ih =>
    intro c h
    by_cases ha : isSlugAlnum a = true
    · rw [collapseNonAlnum, if_pos ha] at h
      simp only [List.head?_cons, Option.some.injEq] at h
      exact h ▸ ha
    · rw [collapseNonAlnum, if_neg ha] at h
      exact ih c (by simpa using h)

theorem collapseNonAlnum_hyphenSep :
    ∀ (l : List Char) (b : Bool), HyphenSep (collapseNonAlnum b l) := by
  intro l
  induction l with
  | nil => intro b; simp [collapseNonAlnum, HyphenSep]
  | cons a t ih =>
    intro b
    by_cases ha : isSlugAlnum a = true
    · rw [HyphenSep, collapseNonAlnum, if_pos ha, List.chain'_cons']
      refine ⟨?_, ih false⟩
      intro y _ hcontra
      exact isSlugAlnum_ne_hyphen ha hcontra.1
    · rw [collapseNonAlnum, if_neg ha]
      cases b with
      | true => simpa using ih true
      | false =>
        simp only [Bool.false_eq_true, if_false]
        rw [HyphenSep, List.chain'_cons']
        refine ⟨?_, ih true⟩
        intro y hy hcontra
        exact isSlugAlnum_ne_hyphen (collapseNonAlnum_true_head t y hy) hcontra.2

theorem mem_stripLeadHyphen {c : Char} {l : List Char} (h : c ∈ stripLeadHyphen l) : c ∈ l := by
  cases l with
  | nil => simpa [stripLeadHyphen] using h
  | cons a t =>
    by_cases ha : a = '-'
    · rw [stripLeadHyphen, if_pos ha] at h
      exact List.mem_cons_of_mem a h
    · rwa [stripLeadHyphen, if_neg ha] at h

theorem hyphenSep_stripLeadHyphen {l : List Char} (h : HyphenSep l) :
    HyphenSep (stripLeadHyphen l) := by
  cases l with
  | nil => simpa [stripLeadHyphen] using h
  | cons a t =>
    by_cases ha : a = '-'
    · rw [stripLeadHyphen, if_pos ha]
      exact List.Chain'.tail h
    · rwa [stripLeadHyphen, if_neg ha]

theorem stripLeadHyphen_head {l : List Char} (h : HyphenSep l) :
    ∀ c, (stripLeadHyphen l).head? = some c → c ≠ '-' := by
  intro c hc
  cases l with
  | nil => simp [stripLeadHyphen] at hc
  | cons a t =>
    by_cases ha : a = '-'
    · rw [stripLeadHyphen, if_pos ha] at hc
      rw [HyphenSep, List.chain'_cons'] at h
      intro hcd
      exact h.1 c (by simpa using hc) ⟨ha, hcd⟩
    · rw [stripLeadHyphen, if_neg ha] at hc
      simp only [List.head?_cons, Option.some.injEq] at hc
      exact hc ▸ ha

theorem hyphenSep_reverse {l : List Char} (h : HyphenSep l) : HyphenSep l.reverse := by
  rw [HyphenSep, List.chain'_reverse]
  exact h.imp fun a b hab hc => hab ⟨hc.2, hc.1⟩

theorem mem_stripTrailHyphen {c : Char} {l : List Char} (h : c ∈ stripTrailHyphen l) : c ∈ l := by
  rw [stripTrailHyphen, List.mem_reverse] at h
  exact List.mem_reverse.mp (mem_stripLeadHyphen h)

theorem stripTrailHyphen_last {l : List Char} (h : HyphenSep l) :
    ∀ c, (stripTrailHyphen l).getLast? = some c → c ≠ '-' := by
  intro c hc
  rw [stripTrailHyphen, List.getLast?_reverse] at hc
  exact stripLeadHyphen_head (hyphenSep_reverse h) c hc

theorem stripLeadHyphen_suffix (l : List Char) : stripLeadHyphen l <:+ l := by
  cases l with
  | nil => exact List.suffix_refl _
  | cons a t =>
    by_cases ha : a = '-'
    · rw [stripLeadHyphen, if_pos ha]
      exact List.suffix_cons a t
    · rw [stripLeadHyphen, if_neg ha]

theorem stripTrailHyphen_initial (l : List Char) : stripTrailHyphen l <+: l := by
  have h := stripLeadHyphen_suffix l.reverse
  have := List.reverse_prefix.mpr h
  simpa [stripTrailHyphen] using this

theorem head?_of_initial {α : Type} {l₁ l₂ : List α} (h : l₁ <+: l₂) {c : α}
    (hc : l₁.head? = some c) : l₂.head? = some c := by
  obtain ⟨t, rfl⟩ := h
  cases l₁ with
  | nil => simp at hc
  | cons a t' => simpa using hc

theorem stripTrailHyphen_head {l : List Char} {c : Char}
    (hc : (stripTrailHyphen l).head? = some c) : l.head? = some c :=
  head?_of_initial (stripTrailHyphen_initial l) hc

theorem toLower_fixed_of_slugChar {c : Char} (h : isSlugAlnum c = true ∨ c = '-') :
    c.toLower = c := by
  rcases h with h | rfl
  · simp only [isSlugAlnum, Bool.or_eq_true, Bool.and_eq_true, decide_eq_true_eq] at h
    rw [Char.toLower]
    have hn : ¬(c.toNat ≥ 65 ∧ c.toNat ≤ 90) := by omega
    simp [hn]
  · decide

theorem map_toLower_fixed :
    ∀ (l : List Char), (∀ c ∈ l, isSlugAlnum c = true ∨ c = '-') →
      l.map Char.toLower = l := by
  intro l
  induction l with
  | nil => intro; rfl
  | cons a t ih =>
    intro h
    simp only [List.map_cons]
    rw [toLower_fixed_of_slugChar (h a (List.mem_cons_self a t)),
      ih fun c hc => h c (List.mem_cons_of_mem a hc)]

theorem hyphenSep_of_noAdjacentHyphens :
    ∀ l : List Char, noAdjacentHyphens l = true → HyphenSep l := by
  intro l
  induction l with
  | nil => intro; exact List.chain'_nil
  | cons a t ih =>
    cases t with
    | nil => intro; exact List.chain'_singleton a
    | cons b t2 =>
      intro h
      simp only [noAdjacentHyphens, Bool.and_eq_true, Bool.not_eq_true',
        Bool.and_eq_false_iff, beq_eq_false_iff_ne] at h
      rw [HyphenSep, List.chain'_cons]
      refine ⟨?_, ih h.2⟩
      intro hc
      rcases h.1 with hne | hne <;> [exact hne hc.1; exact hne hc.2]

theorem collapseNonAlnum_fixed :
    ∀ l : List Char, (∀ c ∈ l, isSlugAlnum c = true ∨ c = '-') → HyphenSep l →
      ∀ b : Bool, (b = true → ∀ c, l.head? = some c → isSlugAlnum c = true) →
      collapseNonAlnum b l = l := by
  intro l
  induction l with
  | nil => intros; rfl
  | cons a t ih =>
    intro hmem hsep b hhead
    by_cases ha : isSlugAlnum a = true
    · rw [collapseNonAlnum, if_pos ha,
        ih (fun c hc => hmem c (List.mem_cons_of_mem a hc)) hsep.tail false (by simp)]
    · have ha' : a = '-' := (hmem a (List.mem_cons_self a t)).resolve_left ha
      cases b with
      | true => exact absurd (hhead rfl a (by simp)) ha
      | false =>
        rw [collapseNonAlnum, if_neg ha]
        simp only [Bool.false_eq_true, if_false]
        rw [ha']
        congr 1
        refine ih (fun c hc => hmem c (List.mem_cons_of_mem a hc)) hsep.tail true ?_
        intro _ c hc
        have hc' : c ∈ t := by
          cases t with
          | nil => simp at hc
          | cons x t2 => simp only [List.head?_cons, Option.some.injEq] at hc; simp [hc]
        have : c ≠ '-' := by
          rw [HyphenSep, List.chain'_cons'] at hsep
          intro hcd
          cases t with
          | nil => simp at hc
          | cons x t2 =>
            simp only [List.head?_cons, Option.some.injEq] at hc
            exact hsep.1 c (by simp [hc]) ⟨ha', hcd⟩
        exact ((hmem c (List.mem_cons_of_mem a hc')).resolve_right this)

theorem stripLeadHyphen_eq_self {l : List Char} (h : l.head? ≠ some '-') :
    stripLeadHyphen l = l := by
  cases l with
  | nil => rfl
  | cons a t =>
    have ha : a ≠ '-' := fun hc => h (by simp [hc])
    rw [stripLeadHyphen, if_neg ha]

theorem stripTrailHyphen_eq_self {l : List Char} (h : l.getLast? ≠ some '-') :
    stripTrailHyphen l = l := by
  rw [stripTrailHyphen, stripLeadHyphen_eq_self (by rwa [List.head?_reverse]),
    List.reverse_reverse]

/-! ## Claim C1 (corrected): identifier resolution in `createSemanticHeading` -/

/-- Counterexample to C1 as stated: supplying the explicit (but empty) id
`""` does not reproduce it verbatim — JavaScript `id || slug` treats the
empty string as absent, so the slug `"hello"` is used instead. -/
theorem createSemanticHeading_emptyId_counterexample :
    (createSemanticHeading { level := 1, text := "Hello", id := some "" }).id ≠ "" := by
  decide

/-- C1, amended: a non-empty explicit id is used verbatim; an absent or
empty id is replaced by the slug of `text` (lower-case, runs of
non-alphanumerics collapsed to single hyphens, leading/trailing hyphen
trimmed); the spec's example derives `"test-heading-with-special-chars"`. -/
theorem createSemanticHeading_id_resolution (cfg : HeadingConfig) :
    (∀ s, cfg.id = some s → s ≠ "" → (createSemanticHeading cfg).id = s) ∧
    (cfg.id = none ∨ cfg.id = some "" → (createSemanticHeading cfg).id = slugify cfg.text) ∧
    slugify "Test & Heading! With @Special# Chars" = "test-heading-with-special-chars" := by
  refine ⟨?_, ?_, by decide⟩
  · intro s hs hne
    simp [createSemanticHeading, jsOr, hs, hne]
  · rintro (h | h) <;> simp [createSemanticHeading, jsOr, h]

theorem createSemanticHeading_id_resolution_witness :
    (createSemanticHeading { level := 2, text := "Contact Us", id := some "custom-id" }).id
        = "custom-id" ∧
    (createSemanticHeading { level := 2, text := "Contact Us" }).id = slugify "Contact Us" :=
  ⟨(createSemanticHeading_id_resolution _).1 "custom-id" rfl (by decide),
   (createSemanticHeading_id_resolution _).2.1 (Or.inl rfl)⟩

/-! ## Claim C2: report shape and the single-H1 rule -/

/-- C2: `validateHeadingStructure` always returns a structured report;
`isValid` is true iff `errors` is empty and is computed from `errors` alone
(suggestions never affect it); zero H1s yields the missing-top-level error
and more than one yields the multiple-H1 error reporting the count; the
empty sequence gives `isValid := false` with exactly the missing-H1 error
and no suggestions. -/
theorem validateHeadingStructure_report :
    (∀ hs, ((validateHeadingStructure hs).isValid = true ↔
      (validateHeadingStructure hs).errors = [])) ∧
    (∀ hs, (validateHeadingStructure hs).isValid = (validateHeadingStructure hs).errors.isEmpty) ∧
    (∀ hs, h1Count hs = 0 → missingH1Msg ∈ (validateHeadingStructure hs).errors) ∧
    (∀ hs, 1 < h1Count hs →
      multipleH1Msg (h1Count hs) ∈ (validateHeadingStructure hs).errors) ∧
    validateHeadingStructure [] = ⟨false, [missingH1Msg], []⟩ := by
  refine ⟨fun hs => ?_, fun hs => rfl, fun hs h => ?_, fun hs h => ?_, by decide⟩
  · exact List.isEmpty_iff
  · simp [validateHeadingStructure, h1Errors, h]
  · have h0 : (h1Count hs == 0) = false := beq_eq_false_iff_ne.mpr (by omega)
    simp [validateHeadingStructure, h1Errors, h0, h]

theorem validateHeadingStructure_report_witness :
    missingH1Msg ∈ (validateHeadingStructure [⟨2, "Section One", none, none, none⟩]).errors ∧
    multipleH1Msg (h1Count [⟨1, "Page Title", none, none, none⟩, ⟨1, "Another Title", none, none, none⟩])
      ∈ (validateHeadingStructure
          [⟨1, "Page Title", none, none, none⟩, ⟨1, "Another Title", none, none, none⟩]).errors :=
  ⟨validateHeadingStructure_report.2.2.1 _ (by decide),
   validateHeadingStructure_report.2.2.2.1 _ (by decide)⟩

/-! ## Claim C3: the no-level-skip rule -/

/-- C3: walking consecutive `(previous, current)` pairs, a level-jump error
naming both levels is emitted whenever `current.level > previous.level + 1`,
and when no pair skips (decreases by any amount are fine) the errors are
exactly those of the other two rules; the `[H1, H4]` example produces the
jump error naming levels 1 and 4; the `[H1, H2, H3, H2]` example is valid
with no errors. -/
theorem validateHeadingStructure_jumps :
    (∀ hs, ∀ pr ∈ hs.zip hs.tail, pr.2.level > pr.1.level + 1 →
      levelJumpMsg pr.1.level pr.2.level ∈ (validateHeadingStructure hs).errors) ∧
    (∀ hs, (∀ pr ∈ hs.zip hs.tail, pr.2.level ≤ pr.1.level + 1) →
      (validateHeadingStructure hs).errors = h1Errors hs ++ textErrors hs) ∧
    levelJumpMsg 1 4 ∈ (validateHeadingStructure
      [⟨1, "Title", none, none, none⟩, ⟨4, "Jumped to H4", none, none, none⟩]).errors ∧
    validateHeadingStructure
      [⟨1, "Page Title", none, none, none⟩, ⟨2, "Section One", none, none, none⟩,
       ⟨3, "Subsection", none, none, none⟩, ⟨2, "Section Two", none, none, none⟩]
      = ⟨true, [], []⟩ := by
  refine ⟨fun hs pr hpr hgt => ?_, fun hs hno => ?_, by decide, by decide⟩
  · have hj : levelJumpMsg pr.1.level pr.2.level ∈ jumpErrors hs :=
      List.mem_filterMap.mpr ⟨pr, hpr, by simp [hgt]⟩
    exact List.mem_append_left _ (List.mem_append_right _ hj)
  · have hj : jumpErrors hs = [] := by
      rw [jumpErrors, List.filterMap_eq_nil]
      intro pr hpr
      simp [Nat.not_lt.mpr (hno pr hpr)]
    show h1Errors hs ++ jumpErrors hs ++ textErrors hs = _
    rw [hj, List.append_nil]

theorem validateHeadingStructure_jumps_witness :
    levelJumpMsg 2 4 ∈ (validateHeadingStructure
      [⟨1, "Page Title", none, none, none⟩, ⟨2, "Section One", none, none, none⟩,
       ⟨4, "Deep Dive", none, none, none⟩]).errors ∧
    (validateHeadingStructure
      [⟨1, "Page Title", none, none, none⟩, ⟨2, "Section One", none, none, none⟩,
       ⟨3, "Subsection", none, none, none⟩, ⟨2, "Section Two", none, none, none⟩]).errors
      = h1Errors [⟨1, "Page Title", none, none, none⟩, ⟨2, "Section One", none, none, none⟩,
          ⟨3, "Subsection", none, none, none⟩, ⟨2, "Section Two", none, none, none⟩]
        ++ textErrors [⟨1, "Page Title", none, none, none⟩, ⟨2, "Section One", none, none, none⟩,
          ⟨3, "Subsection", none, none, none⟩, ⟨2, "Section Two", none, none, none⟩] :=
  ⟨validateHeadingStructure_jumps.1 _
      (⟨⟨2, "Section One", none, none, none⟩, ⟨4, "Deep Dive", none, none, none⟩⟩)
      (by decide) (by decide),
   validateHeadingStructure_jumps.2.1 _ (by decide)⟩

/-! ## Claim C4: slug charset, hyphen trimming, idempotence -/

/-- C4: for every non-empty ASCII text, the derived identifier contains only
`[a-z0-9-]` characters and never starts or ends with a hyphen; and the
derivation is idempotent on strings already in slug form. -/
theorem slugify_wellformed_idempotent :
    (∀ s : String, s ≠ "" → (∀ c ∈ s.data, c.toNat < 128) →
      (∀ c ∈ (slugify s).data, isSlugAlnum c = true ∨ c = '-') ∧
      (∀ c, (slugify s).data.head? = some c → c ≠ '-') ∧
      (∀ c, (slugify s).data.getLast? = some c → c ≠ '-')) ∧
    (∀ s : String, isSlugForm s = true → slugify s = s) := by
  constructor
  · intro s _ _
    have hsep : HyphenSep (collapseNonAlnum false (s.data.map Char.toLower)) :=
      collapseNonAlnum_hyphenSep _ false
    refine ⟨?_, ?_, ?_⟩
    · intro c hc
      exact collapseNonAlnum_mem _ false c (mem_stripLeadHyphen (mem_stripTrailHyphen hc))
    · intro c hc
      exact stripLeadHyphen_head hsep c (stripTrailHyphen_head hc)
    · intro c hc
      exact stripTrailHyphen_last (hyphenSep_stripLeadHyphen hsep) c hc
  · intro s h
    simp only [isSlugForm, Bool.and_eq_true, List.all_eq_true, decide_eq_true_eq,
      Bool.or_eq_true, beq_iff_eq] at h
    obtain ⟨⟨⟨hall, hadj⟩, hhead⟩, hlast⟩ := h
    rw [slugify, map_toLower_fixed _ hall,
      collapseNonAlnum_fixed _ hall (hyphenSep_of_noAdjacentHyphens _ hadj) false (by simp),
      stripLeadHyphen_eq_self hhead, stripTrailHyphen_eq_self hlast]

theorem slugify_wellformed_idempotent_witness :
    ((∀ c ∈ (slugify "Web3 Email!").data, isSlugAlnum c = true ∨ c = '-') ∧
     (∀ c, (slugify "Web3 Email!").data.head? = some c → c ≠ '-') ∧
     (∀ c, (slugify "Web3 Email!").data.getLast? = some c → c ≠ '-')) ∧
    slugify "web3-email" = "web3-email" :=
  ⟨slugify_wellformed_idempotent.1 "Web3 Email!" (by decide) (by decide),
   slugify_wellformed_idempotent.2 "web3-email" (by decide)⟩

/-! ## Lemmas for tag-map lookups -/

theorem lookup_append {β : Type} (k : String) (xs ys : List (String × β)) :
    List.lookup k (xs ++ ys) = (List.lookup k xs).or (List.lookup k ys) := by
  induction xs with
  | nil => simp [List.lookup]
  | cons h t ih =>
    simp only [List.cons_append, List.lookup]
    cases hk : k == h.1 <;> simp [hk, ih]

theorem lookup_listMetaTag_self (n : String) (o : Option (List String)) :
    List.lookup n (listMetaTag n o) = optListVal o := by
  cases o with
  | none => rfl
  | some l => cases l <;> simp [listMetaTag, optListVal, List.lookup]

theorem lookup_listMetaTag_ne (k n : String) (o : Option (List String))
    (h : (k == n) = false) : List.lookup k (listMetaTag n o) = none := by
  cases o with
  | none => rfl
  | some l => cases l <;> simp [listMetaTag, List.lookup, h]

theorem lookup_boolMetaTag_self (n : String) (o : Option Bool) :
    List.lookup n (boolMetaTag n o) = o.map boolStr := by
  cases o <;> simp [boolMetaTag, List.lookup]

theorem lookup_boolMetaTag_ne (k n : String) (o : Option Bool)
    (h : (k == n) = false) : List.lookup k (boolMetaTag n o) = none := by
  cases o <;> simp [boolMetaTag, List.lookup, h]

/-! ## Claim C5: the `AIMeta` component's conditional tag emission -/

/-- C5: `AIMeta` always emits `ai:content-type`, `ai:summary` and
`ai:complexity` (the latter defaulting to `"intermediate"` when
`technicalComplexity` is omitted), and emits each other declared prop's tag
exactly when the prop is present (and non-empty, for list props), joining
lists with single commas and serializing booleans as `"true"`/`"false"`. -/
theorem AIMeta_tag_emission (p : AIMetaProps) :
    List.lookup "ai:content-type" (AIMeta p) = some p.contentType ∧
    List.lookup "ai:summary" (AIMeta p) = some p.aiSummary ∧
    List.lookup "ai:complexity" (AIMeta p) = some (p.technicalComplexity.getD "intermediate") ∧
    List.lookup "ai:blockchain-networks" (AIMeta p) = optListVal p.blockchainNetworks ∧
    List.lookup "ai:token-support" (AIMeta p) = p.tokenSupported.map boolStr ∧
    List.lookup "ai:wallet-requirements" (AIMeta p) = p.walletRequired.map boolStr ∧
    List.lookup "ai:use-case" (AIMeta p) = optListVal p.useCase ∧
    List.lookup "ai:audience" (AIMeta p) = optListVal p.targetAudience ∧
    List.lookup "ai:integrations" (AIMeta p) = optListVal p.integrations ∧
    List.lookup "ai:features" (AIMeta p) = optListVal p.features ∧
    List.lookup "ai:data-flow" (AIMeta p) = optListVal p.dataFlow ∧
    List.lookup "ai:business-value" (AIMeta p) = optListVal p.businessValue ∧
    List.lookup "ai:security-considerations" (AIMeta p) = optListVal p.securityConsiderations ∧
    List.lookup "ai:learning-outcomes" (AIMeta p) = optListVal p.learningOutcomes := by
  refine ⟨?_, ?_, ?_, ?_, ?_, ?_, ?_, ?_, ?_, ?_, ?_, ?_, ?_, ?_⟩ <;>
    simp [AIMeta, lookup_append, lookup_listMetaTag_self, lookup_listMetaTag_ne,
      lookup_boolMetaTag_self, lookup_boolMetaTag_ne, List.lookup,
      Option.none_or, Option.or_none]

/-! ## Claim C6: tag-map generators have fixed, never-omitted key sets -/

/-- C6: `createEnhancedOpenGraph`, `createEnhancedTwitterCard` and
`createAIMetaTags` each return a map over a fixed list of fully-qualified
namespaced keys, for every configuration (no key is ever omitted; all
values are strings by construction, numbers and booleans being
stringified); in particular `twitter:site` is present as `""` when no
Twitter handle is configured. -/
theorem tagMaps_fixed_keys :
    (∀ (cfg : AdvancedSEOConfig) (now : String) (wp : Option String),
      (createEnhancedOpenGraph cfg now wp).map Prod.fst =
        ["og:title", "og:description", "og:type", "og:url", "og:image",
         "og:image:width", "og:image:height", "og:image:alt", "og:site_name",
         "og:locale", "article:author", "article:section", "article:tag",
         "article:published_time", "article:modified_time"]) ∧
    (∀ cfg : AdvancedSEOConfig,
      (createEnhancedTwitterCard cfg).map Prod.fst =
        ["twitter:card", "twitter:site", "twitter:creator", "twitter:title",
         "twitter:description", "twitter:image", "twitter:image:alt",
         "twitter:label1", "twitter:data1", "twitter:label2", "twitter:data2"]) ∧
    (∀ (cfg : AdvancedSEOConfig) (now : String),
      (createAIMetaTags cfg now).map Prod.fst =
        ["ai:content-type", "ai:complexity", "ai:category", "ai:audience",
         "ai:keywords", "ai:reading-time", "web3:platform", "web3:networks",
         "web3:wallets", "web3:features", "llm:context", "llm:domain",
         "llm:use-case", "semantic:topic", "semantic:intent",
         "semantic:entities", "content:freshness", "content:authority",
         "content:expertise", "content:trustworthiness"]) ∧
    (∀ cfg : AdvancedSEOConfig, cfg.branding.twitterHandle = none →
      List.lookup "twitter:site" (createEnhancedTwitterCard cfg) = some "") := by
  refine ⟨fun cfg now wp => rfl, fun cfg => rfl, fun cfg now => rfl, fun cfg h => ?_⟩
  simp [createEnhancedTwitterCard, getBranding, jsOr, h, List.lookup]

theorem tagMaps_fixed_keys_witness :
    List.lookup "twitter:site"
      (createEnhancedTwitterCard
        { title := "T", description := "D", keywords := .str "k", category := "Cat",
          audience := .str "a", complexity := "beginner", contentType := "guide",
          branding := { appName := "MyApp", baseUrl := "https://myapp.example" } })
      = some "" :=
  tagMaps_fixed_keys.2.2.2 _ rfl

/-! ## Claim C7 (corrected): FAQ schema upvote counts and categories -/

/-- Counterexample to C7 as stated: an item supplying the explicit (but
empty) category `""` is serialized with category `"General"`, not with the
supplied category verbatim — `faq.category || 'General'` treats the empty
string as absent. (The serialized item, shown in full, also has no
`upvoteCount` key, the item having supplied none.) -/
theorem createEnhancedFAQSchema_emptyCategory_counterexample :
    (createEnhancedFAQSchema [⟨"Q?", "A.", some "", none⟩]
        ⟨"MyApp", "https://myapp.example", none, none⟩
        "2024-06-01T00:00:00Z").getField "mainEntity"
      = some (JVal.arr [JVal.obj
          [("@type", .str "Question"),
           ("name", .str "Q?"),
           ("acceptedAnswer", .obj
             [("@type", .str "Answer"), ("text", .str "A."),
              ("dateCreated", .str "2024-06-01T00:00:00Z"),
              ("author", .obj [("@type", .str "Organization"), ("name", .str "MyApp")])]),
           ("answerCount", .num 1),
           ("dateCreated", .str "2024-01-01T00:00:00Z"),
           ("category", .str "General")]]) ∧
    ("General" : String) ≠ "" := by
  exact ⟨rfl, by decide⟩

/-- C7, amended: each FAQ item's serialized object carries the supplied
category when it is non-empty and `"General"` when the category is absent
or empty; it includes an `upvoteCount` key with exactly the supplied value
when the item provides one, omits the key entirely otherwise, and never
synthesizes an upvote count. -/
theorem createEnhancedFAQSchema_items (faqs : List FAQItem) (branding : AppBrandingConfig)
    (now : String) :
    (createEnhancedFAQSchema faqs branding now).getField "mainEntity"
      = some (.arr (faqs.map fun f => .obj (faqItemFields (getBranding branding) now f))) ∧
    ∀ f ∈ faqs,
      List.lookup "upvoteCount" (faqItemFields (getBranding branding) now f)
        = f.upvoteCount.map JVal.num ∧
      (f.upvoteCount = none →
        "upvoteCount" ∉ (faqItemFields (getBranding branding) now f).map Prod.fst) ∧
      (∀ c, f.category = some c → c ≠ "" →
        List.lookup "category" (faqItemFields (getBranding branding) now f)
          = some (.str c)) ∧
      (f.category = none ∨ f.category = some "" →
        List.lookup "category" (faqItemFields (getBranding branding) now f)
          = some (.str "General")) := by
  refine ⟨rfl, fun f hf => ⟨?_, ?_, ?_, ?_⟩⟩
  · cases hu : f.upvoteCount <;>
      simp [faqItemFields, lookup_append, List.lookup, hu]
  · intro hu
    simp [faqItemFields, hu]
  · intro c hc hne
    cases hu : f.upvoteCount <;>
      simp [faqItemFields, lookup_append, List.lookup, jsOr, hu, hc, hne]
  · rintro (hc | hc) <;> cases hu : f.upvoteCount <;>
      simp [faqItemFields, lookup_append, List.lookup, jsOr, hu, hc]

theorem createEnhancedFAQSchema_items_witness :
    List.lookup "upvoteCount"
      (faqItemFields (getBranding ⟨"MyApp", "https://myapp.example", none, none⟩)
        "2024-06-01T00:00:00Z" ⟨"Q1?", "A1.", some "Billing", some 7⟩)
      = some (JVal.num 7) ∧
    "upvoteCount" ∉
      (faqItemFields (getBranding ⟨"MyApp", "https://myapp.example", none, none⟩)
        "2024-06-01T00:00:00Z" ⟨"Q2?", "A2.", none, none⟩).map Prod.fst ∧
    List.lookup "category"
      (faqItemFields (getBranding ⟨"MyApp", "https://myapp.example", none, none⟩)
        "2024-06-01T00:00:00Z" ⟨"Q1?", "A1.", some "Billing", some 7⟩)
      = some (.str "Billing") := by
  have h := createEnhancedFAQSchema_items
    [⟨"Q1?", "A1.", some "Billing", some 7⟩, ⟨"Q2?", "A2.", none, none⟩]
    ⟨"MyApp", "https://myapp.example", none, none⟩ "2024-06-01T00:00:00Z"
  refine ⟨(h.2 _ (by simp)).1, (h.2 _ (by simp)).2.1 rfl, (h.2 _ (by simp)).2.2.1 "Billing" rfl (by decide)⟩

/-! ## Claim C8: the `SEO` component's title composition -/

/-- C8: with a non-empty explicit title the composed title is
`"{title} | {appName}"` (the `<title>` element emitted first by the
component carries it), and with the title omitted it is `appName` alone;
`"Dashboard"` with app name `"MyApp"` composes to exactly
`"Dashboard | MyApp"`. -/
theorem SEO_title_composition :
    (∀ p : SEOProps,
      (SEO p).head? = some (HeadTag.titleTag (seoFullTitle p.title p.config.appName))) ∧
    (∀ t appName : String, t ≠ "" → seoFullTitle (some t) appName = t ++ " | " ++ appName) ∧
    (∀ appName : String, seoFullTitle none appName = appName) ∧
    seoFullTitle (some "Dashboard") "MyApp" = "Dashboard | MyApp" := by
  refine ⟨fun p => rfl, fun t appName h => ?_, fun appName => rfl, by decide⟩
  simp [seoFullTitle, h]

theorem SEO_title_composition_witness :
    seoFullTitle (some "Dashboard") "MyApp" = "Dashboard" ++ " | " ++ "MyApp" :=
  SEO_title_composition.2.1 "Dashboard" "MyApp" (by decide)

/-! ## Claim C9: list-or-string normalization -/

/-- C9: `ensureArray` realizes the spec's normalization exactly (a list
as-is; a string split on commas, segments trimmed, empties dropped;
anything else the empty list), and `createAIMetaTags` given the audience
string `"developers, crypto users"` emits an `ai:audience` value containing
both `"developers"` and `"crypto users"`. -/
theorem ensureArray_normalization :
    (∀ v, ensureArray v = specListNormalization v) ∧
    (∀ (cfg : AdvancedSEOConfig) (now : String),
      cfg.audience = .str "developers, crypto users" →
      List.lookup "ai:audience" (createAIMetaTags cfg now) = some "developers,crypto users" ∧
      "developers" ∈ ensureArray (some cfg.audience) ∧
      "crypto users" ∈ ensureArray (some cfg.audience)) := by
  refine ⟨fun v => rfl, fun cfg now hc => ⟨?_, ?_, ?_⟩⟩
  · have hval : String.intercalate ","
        (ensureArray (some (StrOrArr.str "developers, crypto users")))
        = "developers,crypto users" := by decide
    simp [createAIMetaTags, List.lookup, hc, hval]
  · rw [hc]; decide
  · rw [hc]; decide

theorem ensureArray_normalization_witness :
    List.lookup "ai:audience"
      (createAIMetaTags
        { title := "T", description := "D", keywords := .str "k", category := "Cat",
          audience := .str "developers, crypto users", complexity := "beginner",
          contentType := "guide",
          branding := { appName := "MyApp", baseUrl := "https://myapp.example" } }
        "2024-06-01T00:00:00Z")
      = some "developers,crypto users" ∧
    "developers" ∈ ensureArray (some (StrOrArr.str "developers, crypto users")) ∧
    "crypto users" ∈ ensureArray (some (StrOrArr.str "developers, crypto users")) :=
  ensureArray_normalization.2 _ _ rfl

/-! ## Claim C10: empty strings behave as omitted at the `SEO` interface -/

/-- C10: at the `SEO` component's interface the empty string behaves
identically to an omitted value for `title` and `canonical`: the whole
rendered output is equal in both cases; an empty title composes to
`appName` alone; and an empty canonical emits no canonical link and no
`og:url` or `twitter:url` tag (both inputs are tested for truthiness, not
presence). -/
theorem SEO_emptyString_as_omitted :
    (∀ p : SEOProps, SEO { p with title := some "" } = SEO { p with title := none }) ∧
    (∀ p : SEOProps, SEO { p with canonical := some "" } = SEO { p with canonical := none }) ∧
    (∀ p : SEOProps, p.title = some "" →
      (SEO p).head? = some (HeadTag.titleTag p.config.appName)) ∧
    (∀ p : SEOProps, p.canonical = some "" →
      (∀ u, HeadTag.link "canonical" u ∉ SEO p) ∧
      (∀ u, HeadTag.meta "og:url" u ∉ SEO p) ∧
      (∀ u, HeadTag.meta "twitter:url" u ∉ SEO p)) := by
  refine ⟨fun p => rfl, fun p => rfl, fun p h => ?_, fun p h => ?_⟩
  · have h1 : (SEO p).head? = some (HeadTag.titleTag (seoFullTitle p.title p.config.appName)) := rfl
    rw [h1, h]
    rfl
  · have hc : seoCanonicalUrl p.canonical p.config.baseUrl = none := by rw [h]; rfl
    refine ⟨?_, ?_, ?_⟩ <;> intro u hu <;>
      (simp only [SEO, hc] at hu; split_ifs at hu <;> simp at hu)

theorem SEO_emptyString_as_omitted_witness :
    (SEO { title := some "",
           config := { appName := "MyApp", baseUrl := "https://myapp.example" } }).head?
      = some (HeadTag.titleTag "MyApp") ∧
    (∀ u, HeadTag.link "canonical" u ∉
      SEO { canonical := some "",
            config := { appName := "MyApp", baseUrl := "https://myapp.example" } }) :=
  ⟨SEO_emptyString_as_omitted.2.2.1 _ rfl,
   fun u => (SEO_emptyString_as_omitted.2.2.2 _ rfl).1 u⟩
